import Mathlib

/-!
Verification of the pdf-boundingbox region-to-text capture and
field-annotation engine, shallowly embedded from the TypeScript source.
Coordinates are modelled as exact rationals. JS `Math.round` is
round half up; JS string slicing and trimming are modelled on the
character list of the string.
-/

namespace PdfBox

attribute [local semireducible] Rat.add Rat.mul Rat.sub Rat.inv Rat.ofScientific

/-- Mirrors `OCRBBox` from `src/types/index.ts`. -/
structure OCRBBox where
  x0 : ℚ
  y0 : ℚ
  x1 : ℚ
  y1 : ℚ
deriving DecidableEq

/-- Mirrors `OCRWord` from `src/types/index.ts`. -/
structure OCRWord where
  id : String
  text : String
  confidence : ℚ
  bbox : OCRBBox
deriving DecidableEq

/-- JS `Math.round`: round half toward positive infinity. -/
def jsRound (q : ℚ) : ℤ := ⌊q + 1/2⌋

/-- JS `String.prototype.trim` (ASCII whitespace) on a character list. -/
def trimChars (l : List Char) : List Char :=
  ((l.dropWhile Char.isWhitespace).reverse.dropWhile Char.isWhitespace).reverse

/-- JS `String.prototype.trim`. -/
def jsTrim (s : String) : String := ⟨trimChars s.data⟩

/-- JS `String.prototype.slice` with nonnegative indices
(negative indices cannot arise on the reachable paths below). -/
def jsSlice (s : String) (a b : Nat) : String := ⟨(s.data.take b).drop a⟩

/-- Sort entry of `captureTextInBox` (`src/utils/textCapture.ts`):
kept text, word id, word top, horizontal-overlap start. -/
structure Entry where
  text : String
  id : String
  y0 : ℚ
  x0 : ℚ
deriving DecidableEq, BEq

/-- `ROW_TOL` from `captureTextInBox`: tops within 0.008 are the same row. -/
def ROW_TOL : ℚ := 8/1000

/-- The per-word body of the `for` loop of `captureTextInBox`
(`src/utils/textCapture.ts`); `none` when the word is skipped. -/
def entryOfWord (box : OCRBBox) (word : OCRWord) : Option Entry :=
  let cy := (word.bbox.y0 + word.bbox.y1) / 2
  if cy < box.y0 ∨ cy > box.y1 then none
  else
    let overlapX0 := max word.bbox.x0 box.x0
    let overlapX1 := min word.bbox.x1 box.x1
    if overlapX0 ≥ overlapX1 then none
    else
      let wordW := word.bbox.x1 - word.bbox.x0
      let n := word.text.length
      if n = 0 then none
      else
        let extracted :=
          if word.bbox.x0 ≥ box.x0 ∧ word.bbox.x1 ≤ box.x1 then
            word.text
          else
            let sr := max 0 ((box.x0 - word.bbox.x0) / wordW)
            let er := min 1 ((box.x1 - word.bbox.x0) / wordW)
            let startChar := (jsRound (sr * (n : ℚ))).toNat
            let endChar := (jsRound (er * (n : ℚ))).toNat
            jsTrim (jsSlice word.text startChar endChar)
        if extracted = "" then none
        else some ⟨extracted, word.id, word.bbox.y0, overlapX0⟩

/-- The `captured` list of `captureTextInBox`, in input order. -/
def capturedEntries (words : List OCRWord) (box : OCRBBox) : List Entry :=
  words.filterMap (entryOfWord box)

/-- The sort comparator of `captureTextInBox`. -/
def entryCmp (a b : Entry) : ℚ :=
  if |a.y0 - b.y0| > ROW_TOL then a.y0 - b.y0 else a.x0 - b.x0

/-- Comparator viewed as an ordering relation; JS `Array.prototype.sort`
is a stable sort with respect to it. -/
def entryLE (a b : Entry) : Prop := entryCmp a b ≤ 0

instance : DecidableRel entryLE := fun a b =>
  inferInstanceAs (Decidable (entryCmp a b ≤ 0))

/-- The `captured` list after the stable sort of `captureTextInBox`. -/
def sortedEntries (words : List OCRWord) (box : OCRBBox) : List Entry :=
  List.insertionSort entryLE (capturedEntries words box)

/-- Mirrors `CaptureResult` from `src/utils/textCapture.ts`. -/
structure CaptureResult where
  text : String
  wordIds : List String
deriving DecidableEq

/-- `captureTextInBox` from `src/utils/textCapture.ts`. -/
def captureTextInBox (words : List OCRWord) (box : OCRBBox) : CaptureResult :=
  let c := sortedEntries words box
  ⟨String.intercalate " " (c.map (·.text)), c.map (·.id)⟩

/-- Claim C1: for the single word "HELLO" with box `[0,0,1,0.1]` and capture
region `[0,0,0.5,0.1]`, the partial-overlap branch slices the left half by
character ratio, yielding text "HEL" and that word's id. -/
theorem C1_hello_partial_slice :
    captureTextInBox [⟨"w1", "HELLO", 100, ⟨0, 0, 1, 1/10⟩⟩] ⟨0, 0, 1/2, 1/10⟩
      = ⟨"HEL", ["w1"]⟩ := by
  decide

/-- A nonempty string has nonzero length. -/
theorem length_ne_zero_of_ne_empty {s : String} (h : s ≠ "") : s.length ≠ 0 := by
  intro h0
  apply h
  cases s with
  | mk data =>
    cases data with
    | nil => rfl
    | cons c cs => simp [String.length] at h0

/-- A word whose box is contained in the capture box (with positive width)
takes the fully-inside branch and produces an entry with its whole text. -/
theorem entryOfWord_of_contained (box : OCRBBox) (w : OCRWord)
    (htext : w.text ≠ "") (h1 : box.x0 ≤ w.bbox.x0) (h2 : w.bbox.x0 < w.bbox.x1)
    (h3 : w.bbox.x1 ≤ box.x1) (h4 : box.y0 ≤ w.bbox.y0) (h5 : w.bbox.y0 ≤ w.bbox.y1)
    (h6 : w.bbox.y1 ≤ box.y1) :
    entryOfWord box w = some ⟨w.text, w.id, w.bbox.y0, max w.bbox.x0 box.x0⟩ := by
  have hcy : ¬((w.bbox.y0 + w.bbox.y1) / 2 < box.y0 ∨ (w.bbox.y0 + w.bbox.y1) / 2 > box.y1) := by
    push_neg
    constructor <;> [linarith; linarith]
  have hov : ¬(max w.bbox.x0 box.x0 ≥ min w.bbox.x1 box.x1) := by
    push_neg
    rw [max_lt_iff]
    constructor <;> rw [lt_min_iff] <;> constructor <;> linarith
  have hn : ¬(w.text.length = 0) := length_ne_zero_of_ne_empty htext
  have hin : w.bbox.x0 ≥ box.x0 ∧ w.bbox.x1 ≤ box.x1 := ⟨h1, h3⟩
  simp only [entryOfWord]
  rw [if_neg hcy, if_neg hov, if_neg hn, if_pos hin, if_neg htext]

/-- Every produced entry carries the id of the word it came from. -/
theorem entryOfWord_id (box : OCRBBox) (w : OCRWord) (e : Entry)
    (h : entryOfWord box w = some e) : e.id = w.id := by
  simp only [entryOfWord] at h
  repeat' split at h
  all_goals simp_all
  all_goals exact (congrArg Entry.id h.symm)

/-- A word whose vertical midpoint is outside the box, or whose horizontal
intersection with the box is empty, is skipped by the capture loop. -/
theorem entryOfWord_excluded (box : OCRBBox) (w : OCRWord)
    (h : ((w.bbox.y0 + w.bbox.y1) / 2 < box.y0 ∨ (w.bbox.y0 + w.bbox.y1) / 2 > box.y1) ∨
      max w.bbox.x0 box.x0 ≥ min w.bbox.x1 box.x1) :
    entryOfWord box w = none := by
  simp only [entryOfWord]
  rcases h with hmid | hov
  · rw [if_pos hmid]
  · by_cases hmid2 : (w.bbox.y0 + w.bbox.y1) / 2 < box.y0 ∨ (w.bbox.y0 + w.bbox.y1) / 2 > box.y1
    · rw [if_pos hmid2]
    · rw [if_neg hmid2, if_pos hov]

/-- Claim C2, counterexample: a zero-width word satisfying the claim's
containment condition `box.x0 ≤ x0 ≤ x1 ≤ box.x1` (with `x0 = x1`) and
nonempty text is nevertheless dropped, because the code also requires a
nonempty horizontal intersection (`overlapX0 < overlapX1`). -/
theorem C2_counterexample_zero_width :
    ((0:ℚ) ≤ 1/2 ∧ (1/2:ℚ) ≤ 1/2 ∧ (1/2:ℚ) ≤ 1 ∧
      (0:ℚ) ≤ 1/5 ∧ (1/5:ℚ) ≤ 3/10 ∧ (3/10:ℚ) ≤ 1 ∧ ("X" : String) ≠ "") ∧
    captureTextInBox [⟨"w", "X", 100, ⟨1/2, 1/5, 1/2, 3/10⟩⟩] ⟨0, 0, 1, 1⟩
      = ⟨"", []⟩ := by
  decide

/-- Claim C2 (amended: the word's box must have positive width, since the
code drops words with an empty horizontal intersection): a word with
nonempty text whose positive-width box is fully contained in the capture
box contributes an entry with its full unmodified text, and its id is in
`wordIds`. -/
theorem C2_contained_word_kept (words : List OCRWord) (box : OCRBBox) (w : OCRWord)
    (hw : w ∈ words) (htext : w.text ≠ "") (h1 : box.x0 ≤ w.bbox.x0)
    (h2 : w.bbox.x0 < w.bbox.x1) (h3 : w.bbox.x1 ≤ box.x1)
    (h4 : box.y0 ≤ w.bbox.y0) (h5 : w.bbox.y0 ≤ w.bbox.y1) (h6 : w.bbox.y1 ≤ box.y1) :
    (∃ e ∈ sortedEntries words box, e.id = w.id ∧ e.text = w.text) ∧
      w.id ∈ (captureTextInBox words box).wordIds := by
  have he := entryOfWord_of_contained box w htext h1 h2 h3 h4 h5 h6
  have hmem : (⟨w.text, w.id, w.bbox.y0, max w.bbox.x0 box.x0⟩ : Entry) ∈
      capturedEntries words box :=
    List.mem_filterMap.mpr ⟨w, hw, he⟩
  have hmem2 : (⟨w.text, w.id, w.bbox.y0, max w.bbox.x0 box.x0⟩ : Entry) ∈
      sortedEntries words box :=
    ((List.perm_insertionSort entryLE (capturedEntries words box)).mem_iff).mpr hmem
  refine ⟨⟨_, hmem2, rfl, rfl⟩, ?_⟩
  simp only [captureTextInBox]
  exact List.mem_map.mpr ⟨_, hmem2, rfl⟩

/-- Witness for the amended C2 at a concrete fully-contained word. -/
theorem C2_contained_word_kept_witness :
    (∃ e ∈ sortedEntries [⟨"a1", "HI", 100, ⟨1/4, 1/4, 3/4, 1/2⟩⟩] ⟨0, 0, 1, 1⟩,
        e.id = "a1" ∧ e.text = "HI") ∧
      "a1" ∈ (captureTextInBox [⟨"a1", "HI", 100, ⟨1/4, 1/4, 3/4, 1/2⟩⟩] ⟨0, 0, 1, 1⟩).wordIds :=
  C2_contained_word_kept [⟨"a1", "HI", 100, ⟨1/4, 1/4, 3/4, 1/2⟩⟩] ⟨0, 0, 1, 1⟩
    ⟨"a1", "HI", 100, ⟨1/4, 1/4, 3/4, 1/2⟩⟩ (by decide) (by decide) (by decide)
    (by decide) (by decide) (by decide) (by decide) (by decide)

/-- Claim C3: a word whose vertical midpoint lies outside `[box.y0, box.y1]`,
or whose horizontal intersection with the box is empty, is excluded: it
produces no entry, and (ids being unique in the input, as the data model
requires) its id does not appear in `wordIds`. -/
theorem C3_outside_word_excluded (words : List OCRWord) (box : OCRBBox) (w : OCRWord)
    (_hw : w ∈ words) (huniq : ∀ v ∈ words, v.id = w.id → v = w)
    (h : ((w.bbox.y0 + w.bbox.y1) / 2 < box.y0 ∨ (w.bbox.y0 + w.bbox.y1) / 2 > box.y1) ∨
      max w.bbox.x0 box.x0 ≥ min w.bbox.x1 box.x1) :
    entryOfWord box w = none ∧ w.id ∉ (captureTextInBox words box).wordIds := by
  have hnone := entryOfWord_excluded box w h
  refine ⟨hnone, ?_⟩
  intro hmem
  simp only [captureTextInBox] at hmem
  obtain ⟨e, he, heid⟩ := List.mem_map.mp hmem
  have he2 : e ∈ capturedEntries words box :=
    ((List.perm_insertionSort entryLE (capturedEntries words box)).mem_iff).mp he
  obtain ⟨v, hv, hve⟩ := List.mem_filterMap.mp he2
  have hev : e.id = v.id := entryOfWord_id box v e hve
  have hvw : v = w := huniq v hv (by rw [← hev, heid])
  rw [hvw, hnone] at hve
  exact Option.noConfusion hve

/-- Witness for C3: a concrete word above the box's row band is excluded. -/
theorem C3_outside_word_excluded_witness :
    entryOfWord ⟨0, 0, 1, 1/10⟩ ⟨"o1", "OUT", 100, ⟨0, 1/5, 1/2, 2/5⟩⟩ = none ∧
      "o1" ∉ (captureTextInBox [⟨"o1", "OUT", 100, ⟨0, 1/5, 1/2, 2/5⟩⟩] ⟨0, 0, 1, 1/10⟩).wordIds :=
  C3_outside_word_excluded [⟨"o1", "OUT", 100, ⟨0, 1/5, 1/2, 2/5⟩⟩] ⟨0, 0, 1, 1/10⟩
    ⟨"o1", "OUT", 100, ⟨0, 1/5, 1/2, 2/5⟩⟩ (by decide) (by decide) (by decide)

/-- The JS comparator is antisymmetric: swapping arguments negates it. -/
theorem entryCmp_swap (a b : Entry) : entryCmp b a = -entryCmp a b := by
  unfold entryCmp
  rw [abs_sub_comm b.y0 a.y0]
  split_ifs <;> ring

/-- The comparator ordering is total. -/
theorem entryLE_total (a b : Entry) : entryLE a b ∨ entryLE b a := by
  unfold entryLE
  rcases le_total (entryCmp a b) 0 with h | h
  · exact Or.inl h
  · right
    rw [entryCmp_swap]
    linarith

/-- Inserting into a comparator-chained list keeps adjacent pairs ordered,
using only totality of the ordering (the tolerance-based comparator is not
transitive, so full sortedness is not available). -/
theorem chain_orderedInsert_entry (x : Entry) :
    ∀ l : List Entry, l.Chain' entryLE → (List.orderedInsert entryLE x l).Chain' entryLE := by
  intro l
  induction l with
  | nil =>
    intro _
    simp [List.orderedInsert]
  | cons b t ih =>
    intro h
    simp only [List.orderedInsert]
    by_cases hxb : entryLE x b
    · rw [if_pos hxb]
      exact List.chain'_cons.mpr ⟨hxb, h⟩
    · rw [if_neg hxb]
      have hbx : entryLE b x := (entryLE_total x b).resolve_left hxb
      have hrec := ih h.tail
      rw [List.chain'_cons']
      refine ⟨?_, hrec⟩
      intro y hy
      cases t with
      | nil =>
        simp [List.orderedInsert] at hy
        subst hy
        exact hbx
      | cons c t2 =>
        simp only [List.orderedInsert] at hy
        by_cases hxc : entryLE x c
        · rw [if_pos hxc] at hy
          simp at hy
          subst hy
          exact hbx
        · rw [if_neg hxc] at hy
          simp at hy
          subst hy
          exact (List.chain'_cons.mp h).1

/-- The stable sort of the capture comparator chains adjacent pairs. -/
theorem chain_insertionSort_entry (l : List Entry) :
    (List.insertionSort entryLE l).Chain' entryLE := by
  induction l with
  | nil => simp
  | cons b t ih => simpa [List.insertionSort] using chain_orderedInsert_entry b _ ih

/-- Claim C4, counterexample: three words chained through the same-row
tolerance (rows 0, 0.009, 0.005). The entry "C" is on the same row as "A"
(|0.005 - 0| ≤ 0.008) with strictly smaller overlap start (0.5 < 0.9), yet
the sort leaves "A" first, so "C" does not precede "A" in the output. -/
theorem C4_counterexample_row_chain :
    sortedEntries
        [⟨"w1", "A", 100, ⟨9/10, 0, 19/20, 1/100⟩⟩,
          ⟨"w2", "B", 100, ⟨0, 9/1000, 1/20, 19/1000⟩⟩,
          ⟨"w3", "C", 100, ⟨1/2, 1/200, 11/20, 3/200⟩⟩] ⟨0, 0, 1, 1⟩
      = [⟨"A", "w1", 0, 9/10⟩, ⟨"B", "w2", 9/1000, 0⟩, ⟨"C", "w3", 1/200, 1/2⟩] ∧
    |(1/200 : ℚ) - 0| ≤ ROW_TOL ∧ ((1/2 : ℚ) < 9/10) ∧
    captureTextInBox
        [⟨"w1", "A", 100, ⟨9/10, 0, 19/20, 1/100⟩⟩,
          ⟨"w2", "B", 100, ⟨0, 9/1000, 1/20, 19/1000⟩⟩,
          ⟨"w3", "C", 100, ⟨1/2, 1/200, 11/20, 3/200⟩⟩] ⟨0, 0, 1, 1⟩
      = ⟨"A B C", ["w1", "w2", "w3"]⟩ := by
  decide

/-- Claim C4 (amended: the reading-order guarantee holds for entries that
are adjacent in the output; for non-adjacent same-row entries it can fail
when rows chain through the 0.008 tolerance, as the comparator is not
transitive): adjacent captured entries on the same row appear
left-to-right by overlap start. -/
theorem C4_adjacent_same_row_ordered (words : List OCRWord) (box : OCRBBox)
    (i : Nat) (a b : Entry)
    (ha : (sortedEntries words box).get? i = some a)
    (hb : (sortedEntries words box).get? (i + 1) = some b)
    (hrow : |a.y0 - b.y0| ≤ ROW_TOL) :
    a.x0 ≤ b.x0 := by
  have hch : (sortedEntries words box).Chain' entryLE := chain_insertionSort_entry _
  obtain ⟨hib, hgb⟩ := List.get?_eq_some.mp hb
  obtain ⟨hia, hga⟩ := List.get?_eq_some.mp ha
  have hle := List.chain'_iff_get.mp hch i (by omega)
  rw [hga, hgb] at hle
  unfold entryLE entryCmp at hle
  rw [if_neg (not_lt.mpr hrow)] at hle
  linarith

/-- Witness for the amended C4 at two concrete same-row words given out of
reading order in the input. -/
theorem C4_adjacent_same_row_ordered_witness :
    (sortedEntries [⟨"b1", "B", 100, ⟨6/10, 0, 7/10, 1/100⟩⟩,
        ⟨"a1", "A", 100, ⟨1/10, 1/1000, 2/10, 11/1000⟩⟩] ⟨0, 0, 1, 1⟩).get? 0
        = some ⟨"A", "a1", 1/1000, 1/10⟩ ∧
      (sortedEntries [⟨"b1", "B", 100, ⟨6/10, 0, 7/10, 1/100⟩⟩,
        ⟨"a1", "A", 100, ⟨1/10, 1/1000, 2/10, 11/1000⟩⟩] ⟨0, 0, 1, 1⟩).get? 1
        = some ⟨"B", "b1", 0, 6/10⟩ ∧
      (1/10 : ℚ) ≤ 6/10 :=
  ⟨by decide, by decide,
    C4_adjacent_same_row_ordered
      [⟨"b1", "B", 100, ⟨6/10, 0, 7/10, 1/100⟩⟩,
        ⟨"a1", "A", 100, ⟨1/10, 1/1000, 2/10, 11/1000⟩⟩] ⟨0, 0, 1, 1⟩ 0
      ⟨"A", "a1", 1/1000, 1/10⟩ ⟨"B", "b1", 0, 6/10⟩
      (by decide) (by decide) (by decide)⟩

/-- `MIN_RECT` from `BoundingBoxOverlay.tsx`: minimum drag size in
normalized units before a release counts as a drawn rectangle. -/
def MIN_RECT : ℚ := 1/100

/-- A point in normalized overlay coordinates. -/
structure Point where
  x : ℚ
  y : ℚ
deriving DecidableEq

/-- Mirrors `DragState` from `BoundingBoxOverlay.tsx`. -/
structure DragState where
  start : Point
  current : Point
deriving DecidableEq

/-- The transient interaction state of `BoundingBoxOverlay.tsx`: the React
state hooks (`dragState`, `selectedIds`, `labelPopup`, `labelInput`,
`pendingRect`) and the two refs (`pendingWordsRef`, `capturedTextRef`). -/
structure OverlayState where
  dragState : Option DragState
  selectedIds : List String
  labelPopup : Option Point
  labelInput : String
  pendingRect : Option OCRBBox
  pendingWords : List OCRWord
  capturedText : String
deriving DecidableEq

/-- `handleWordClick` from `BoundingBoxOverlay.tsx`; the selected-id set is
modelled as a duplicate-free list in insertion order. -/
def handleWordClick (isFieldMode : Bool) (shift : Bool) (w : OCRWord)
    (s : OverlayState) : OverlayState :=
  if isFieldMode = false then s
  else
    let prev := s.selectedIds
    let next :=
      if shift then
        if w.id ∈ prev then prev.erase w.id else prev ++ [w.id]
      else if w.id ∈ prev ∧ prev.length = 1 then prev.erase w.id
      else [w.id]
    { s with selectedIds := next, labelPopup := none }

/-- `handleMouseDown` from `BoundingBoxOverlay.tsx`; the event is a
pointer-down on the overlay background itself. -/
def handleMouseDown (isFieldMode : Bool) (p : Point) (s : OverlayState) : OverlayState :=
  if isFieldMode = false then s
  else { s with dragState := some ⟨p, p⟩, selectedIds := [], labelPopup := none,
                pendingRect := none }

/-- `handleMouseMove` from `BoundingBoxOverlay.tsx`. -/
def handleMouseMove (p : Point) (s : OverlayState) : OverlayState :=
  match s.dragState with
  | none => s
  | some d => { s with dragState := some ⟨d.start, p⟩ }

/-- `handleMouseUp` from `BoundingBoxOverlay.tsx`; `q` is the on-screen
popup position derived from the mouse event. -/
def handleMouseUp (words : List OCRWord) (q p : Point) (s : OverlayState) : OverlayState :=
  match s.dragState with
  | none => s
  | some d =>
    let bbox : OCRBBox := ⟨min d.start.x p.x, min d.start.y p.y,
                           max d.start.x p.x, max d.start.y p.y⟩
    if bbox.x1 - bbox.x0 < MIN_RECT ∨ bbox.y1 - bbox.y0 < MIN_RECT then
      { s with dragState := none, selectedIds := [], labelPopup := none }
    else
      let r := captureTextInBox words bbox
      { s with dragState := none,
               pendingWords := words.filter (fun w => w.id ∈ r.wordIds),
               capturedText := r.text,
               pendingRect := some bbox,
               labelInput := "",
               labelPopup := some q }

/-- The commit sent to the field store by `handleSaveField`. -/
inductive SaveCmd where
  | rectField (bbox : OCRBBox) (label : String) (value : String) (wordIds : List String)
  | wordsField (label : String) (selected : List OCRWord)
deriving DecidableEq

/-- `handleSaveField` from `BoundingBoxOverlay.tsx`: the new transient
state, plus the commit passed to the store (if any). -/
def handleSaveField (words : List OCRWord) (s : OverlayState) :
    OverlayState × Option SaveCmd :=
  let label := jsTrim s.labelInput
  if label = "" then (s, none)
  else
    match s.pendingRect with
    | some rect =>
      ({ s with pendingWords := [], capturedText := "", pendingRect := none,
                labelPopup := none, labelInput := "" },
        some (.rectField rect label s.capturedText (s.pendingWords.map (fun w => w.id))))
    | none =>
      if s.selectedIds.length > 0 then
        ({ s with selectedIds := [], labelPopup := none, labelInput := "" },
          some (.wordsField label (words.filter (fun w => w.id ∈ s.selectedIds))))
      else ({ s with labelPopup := none, labelInput := "" }, none)

/-- `cancelPopup` from `BoundingBoxOverlay.tsx`. -/
def cancelPopup (s : OverlayState) : OverlayState :=
  { s with labelPopup := none, pendingRect := none, selectedIds := [] }

/-- The derived value `hasWordSelection` from `BoundingBoxOverlay.tsx`:
the word-selection path is shown only when no rectangle is pending. -/
def hasWordSelection (words : List OCRWord) (s : OverlayState) : Bool :=
  ((words.filter (fun w => w.id ∈ s.selectedIds)).length > 0) && s.pendingRect.isNone

/-- The overlay component together with its `mode` prop. -/
structure Config where
  isFieldMode : Bool
  overlay : OverlayState
deriving DecidableEq

/-- Discrete user-interface events delivered to the overlay. A mode change
only swaps the `mode` prop: no component code runs on it. -/
inductive UIEvent where
  | wordClick (shift : Bool) (w : OCRWord)
  | backgroundDown (p : Point)
  | pointerMove (p : Point)
  | pointerUp (q p : Point)
  | save
  | cancel
  | setMode (field : Bool)

/-- One event step of the overlay. -/
def stepUI (words : List OCRWord) (c : Config) : UIEvent → Config
  | .wordClick shift w => { c with overlay := handleWordClick c.isFieldMode shift w c.overlay }
  | .backgroundDown p => { c with overlay := handleMouseDown c.isFieldMode p c.overlay }
  | .pointerMove p => { c with overlay := handleMouseMove p c.overlay }
  | .pointerUp q p => { c with overlay := handleMouseUp words q p c.overlay }
  | .save => { c with overlay := (handleSaveField words c.overlay).1 }
  | .cancel => { c with overlay := cancelPopup c.overlay }
  | .setMode b => { c with isFieldMode := b }

/-- Run a sequence of events. -/
def runUI (words : List OCRWord) (c : Config) (es : List UIEvent) : Config :=
  es.foldl (stepUI words) c

/-- Claim C5: a release whose rectangle is below `MIN_RECT` in either axis
discards the drag: drag state, selection and popup are cleared, no pending
rectangle is stored and no capture result is written (the capture fields
are untouched); moreover a drag can only start with `pendingRect` cleared,
so the state is back to idle. -/
theorem C5_small_drag_discarded (words : List OCRWord) (s : OverlayState)
    (d : DragState) (q p : Point)
    (hd : s.dragState = some d)
    (hsmall : max d.start.x p.x - min d.start.x p.x < MIN_RECT ∨
      max d.start.y p.y - min d.start.y p.y < MIN_RECT) :
    (handleMouseUp words q p s).dragState = none ∧
    (handleMouseUp words q p s).selectedIds = [] ∧
    (handleMouseUp words q p s).labelPopup = none ∧
    (handleMouseUp words q p s).pendingRect = s.pendingRect ∧
    (handleMouseUp words q p s).pendingWords = s.pendingWords ∧
    (handleMouseUp words q p s).capturedText = s.capturedText ∧
    (∀ (r : Point) (s2 : OverlayState), (handleMouseDown true r s2).pendingRect = none) := by
  have key : handleMouseUp words q p s =
      { s with dragState := none, selectedIds := [], labelPopup := none } := by
    unfold handleMouseUp
    rw [hd]
    simp only
    rw [if_pos hsmall]
  rw [key]
  exact ⟨rfl, rfl, rfl, rfl, rfl, rfl, fun r s2 => by simp [handleMouseDown]⟩

/-- Witness for C5: a concrete 0.005-wide drag is discarded. -/
theorem C5_small_drag_discarded_witness :
    (handleMouseUp [] ⟨0, 0⟩ ⟨1/200, 1/2⟩
        ⟨some ⟨⟨0, 0⟩, ⟨0, 0⟩⟩, ["s1"], some ⟨0, 0⟩, "", none, [], ""⟩).dragState = none ∧
    (handleMouseUp [] ⟨0, 0⟩ ⟨1/200, 1/2⟩
        ⟨some ⟨⟨0, 0⟩, ⟨0, 0⟩⟩, ["s1"], some ⟨0, 0⟩, "", none, [], ""⟩).selectedIds = [] ∧
    (handleMouseUp [] ⟨0, 0⟩ ⟨1/200, 1/2⟩
        ⟨some ⟨⟨0, 0⟩, ⟨0, 0⟩⟩, ["s1"], some ⟨0, 0⟩, "", none, [], ""⟩).labelPopup = none ∧
    (handleMouseUp [] ⟨0, 0⟩ ⟨1/200, 1/2⟩
        ⟨some ⟨⟨0, 0⟩, ⟨0, 0⟩⟩, ["s1"], some ⟨0, 0⟩, "", none, [], ""⟩).pendingRect
      = (⟨some ⟨⟨0, 0⟩, ⟨0, 0⟩⟩, ["s1"], some ⟨0, 0⟩, "", none, [], ""⟩ : OverlayState).pendingRect ∧
    (handleMouseUp [] ⟨0, 0⟩ ⟨1/200, 1/2⟩
        ⟨some ⟨⟨0, 0⟩, ⟨0, 0⟩⟩, ["s1"], some ⟨0, 0⟩, "", none, [], ""⟩).pendingWords
      = (⟨some ⟨⟨0, 0⟩, ⟨0, 0⟩⟩, ["s1"], some ⟨0, 0⟩, "", none, [], ""⟩ : OverlayState).pendingWords ∧
    (handleMouseUp [] ⟨0, 0⟩ ⟨1/200, 1/2⟩
        ⟨some ⟨⟨0, 0⟩, ⟨0, 0⟩⟩, ["s1"], some ⟨0, 0⟩, "", none, [], ""⟩).capturedText
      = (⟨some ⟨⟨0, 0⟩, ⟨0, 0⟩⟩, ["s1"], some ⟨0, 0⟩, "", none, [], ""⟩ : OverlayState).capturedText ∧
    (∀ (r : Point) (s2 : OverlayState), (handleMouseDown true r s2).pendingRect = none) :=
  C5_small_drag_discarded [] ⟨some ⟨⟨0, 0⟩, ⟨0, 0⟩⟩, ["s1"], some ⟨0, 0⟩, "", none, [], ""⟩
    ⟨⟨0, 0⟩, ⟨0, 0⟩⟩ ⟨0, 0⟩ ⟨1/200, 1/2⟩ rfl (by decide)

/-- Claim C6, counterexample: after a completed drag stores a pending
rectangle, a word click adds to the selection without clearing the
rectangle, so both transient capture states are active at once; a
subsequent mode change clears neither. -/
theorem C6_counterexample_both_active :
    (runUI [⟨"z1", "Z", 100, ⟨9/10, 9/10, 19/20, 19/20⟩⟩]
        ⟨true, ⟨none, [], none, "", none, [], ""⟩⟩
        [.backgroundDown ⟨1/10, 1/10⟩, .pointerUp ⟨1/2, 1/2⟩ ⟨1/2, 1/2⟩,
          .wordClick false ⟨"z1", "Z", 100, ⟨9/10, 9/10, 19/20, 19/20⟩⟩,
          .setMode false]).overlay.selectedIds = ["z1"] ∧
    (runUI [⟨"z1", "Z", 100, ⟨9/10, 9/10, 19/20, 19/20⟩⟩]
        ⟨true, ⟨none, [], none, "", none, [], ""⟩⟩
        [.backgroundDown ⟨1/10, 1/10⟩, .pointerUp ⟨1/2, 1/2⟩ ⟨1/2, 1/2⟩,
          .wordClick false ⟨"z1", "Z", 100, ⟨9/10, 9/10, 19/20, 19/20⟩⟩,
          .setMode false]).overlay.pendingRect = some ⟨1/10, 1/10, 1/2, 1/2⟩ := by
  decide

/-- Claim C6 (amended: the two transient capture states are not mutually
exclusive — a word click while a rectangle is pending leaves both set, and
a mode change clears neither — but the pending rectangle takes precedence:
the word-selection bar is suppressed and save commits the rectangle path;
both states are cleared on cancel and at the start of a new drag). -/
theorem C6_rect_precedence_and_clearing (words : List OCRWord) (s : OverlayState)
    (r : OCRBBox) (p : Point)
    (hr : s.pendingRect = some r) (hl : jsTrim s.labelInput ≠ "") :
    ((cancelPopup s).selectedIds = [] ∧ (cancelPopup s).pendingRect = none ∧
      (cancelPopup s).labelPopup = none) ∧
    ((handleMouseDown true p s).selectedIds = [] ∧
      (handleMouseDown true p s).pendingRect = none) ∧
    hasWordSelection words s = false ∧
    (handleSaveField words s).2
      = some (.rectField r (jsTrim s.labelInput) s.capturedText
          (s.pendingWords.map (fun w => w.id))) ∧
    (handleSaveField words s).1.pendingRect = none := by
  refine ⟨⟨rfl, rfl, rfl⟩, ⟨by simp [handleMouseDown], by simp [handleMouseDown]⟩, ?_, ?_, ?_⟩
  · simp [hasWordSelection, hr]
  · simp only [handleSaveField]
    rw [if_neg hl, hr]
  · simp only [handleSaveField]
    rw [if_neg hl, hr]

/-- Witness for the amended C6 at a concrete pending-rectangle state. -/
theorem C6_rect_precedence_and_clearing_witness :
    ((cancelPopup ⟨none, ["q1"], some ⟨0, 0⟩, " L ", some ⟨0, 0, 1, 1⟩, [], "T"⟩).selectedIds = [] ∧
      (cancelPopup ⟨none, ["q1"], some ⟨0, 0⟩, " L ", some ⟨0, 0, 1, 1⟩, [], "T"⟩).pendingRect = none ∧
      (cancelPopup ⟨none, ["q1"], some ⟨0, 0⟩, " L ", some ⟨0, 0, 1, 1⟩, [], "T"⟩).labelPopup = none) ∧
    ((handleMouseDown true ⟨0, 0⟩
        ⟨none, ["q1"], some ⟨0, 0⟩, " L ", some ⟨0, 0, 1, 1⟩, [], "T"⟩).selectedIds = [] ∧
      (handleMouseDown true ⟨0, 0⟩
        ⟨none, ["q1"], some ⟨0, 0⟩, " L ", some ⟨0, 0, 1, 1⟩, [], "T"⟩).pendingRect = none) ∧
    hasWordSelection [] ⟨none, ["q1"], some ⟨0, 0⟩, " L ", some ⟨0, 0, 1, 1⟩, [], "T"⟩ = false ∧
    (handleSaveField [] ⟨none, ["q1"], some ⟨0, 0⟩, " L ", some ⟨0, 0, 1, 1⟩, [], "T"⟩).2
      = some (.rectField ⟨0, 0, 1, 1⟩
          (jsTrim (⟨none, ["q1"], some ⟨0, 0⟩, " L ", some ⟨0, 0, 1, 1⟩, [], "T"⟩ : OverlayState).labelInput)
          (⟨none, ["q1"], some ⟨0, 0⟩, " L ", some ⟨0, 0, 1, 1⟩, [], "T"⟩ : OverlayState).capturedText
          ((⟨none, ["q1"], some ⟨0, 0⟩, " L ", some ⟨0, 0, 1, 1⟩, [], "T"⟩ : OverlayState).pendingWords.map
            (fun w => w.id))) ∧
    (handleSaveField [] ⟨none, ["q1"], some ⟨0, 0⟩, " L ", some ⟨0, 0, 1, 1⟩, [], "T"⟩).1.pendingRect = none :=
  C6_rect_precedence_and_clearing []
    ⟨none, ["q1"], some ⟨0, 0⟩, " L ", some ⟨0, 0, 1, 1⟩, [], "T"⟩
    ⟨0, 0, 1, 1⟩ ⟨0, 0⟩ rfl (by decide)


/-- Mirrors the `FieldAnnotation` interface from `src/types/index.ts`. -/
structure FieldAnn where
  id : String
  pageNumber : Nat
  label : String
  value : String
  bbox : OCRBBox
  wordIds : List String
  color : String
  createdAt : Nat
deriving DecidableEq

/-- `FIELD_COLORS` from `src/services/fieldStore.ts`. -/
def FIELD_COLORS : List String :=
  ["#6c63ff", "#e74c3c", "#2ecc71", "#f39c12",
   "#1abc9c", "#e91e63", "#3498db", "#ff5722",
   "#9b59b6", "#00bcd4"]

/-- `mergeBBoxes` from `src/services/fieldStore.ts`. On the empty list the
JS spread of `Math.min`/`Math.max` yields infinities, which have no rational
counterpart; the store never merges an empty selection in the properties
proved here, so the empty case is given a dummy box. -/
def mergeBBoxes : List OCRBBox → OCRBBox
  | [] => ⟨0, 0, 0, 0⟩
  | b :: t =>
    ⟨(t.map (fun v => v.x0)).foldl min b.x0, (t.map (fun v => v.y0)).foldl min b.y0,
      (t.map (fun v => v.x1)).foldl max b.x1, (t.map (fun v => v.y1)).foldl max b.y1⟩

/-- The `Map<number, FieldAnnotation[]>` of the store. The store never
iterates the map, so it is modelled extensionally by its lookup function. -/
def PageMap := Nat → Option (List FieldAnn)

/-- JS `Map.get`. -/
def mapGet (m : PageMap) (k : Nat) : Option (List FieldAnn) := m k

/-- JS `Map.set`. -/
def mapSet (m : PageMap) (k : Nat) (v : List FieldAnn) : PageMap :=
  fun q => if q = k then some v else m q

/-- JS `Map.delete`. -/
def mapDelete (m : PageMap) (k : Nat) : PageMap :=
  fun q => if q = k then none else m q

/-- Setting a key then reading it gives the stored value. -/
theorem mapGet_mapSet_self (m : PageMap) (k : Nat) (v : List FieldAnn) :
    mapGet (mapSet m k v) k = some v := by
  simp [mapGet, mapSet]

/-- Setting one key leaves reads of other keys unchanged. -/
theorem mapGet_mapSet_ne (m : PageMap) (k q : Nat) (v : List FieldAnn) (hq : q ≠ k) :
    mapGet (mapSet m k v) q = mapGet m q := by
  simp [mapGet, mapSet, hq]

/-- Deleting one key leaves reads of other keys unchanged. -/
theorem mapGet_mapDelete_ne (m : PageMap) (k q : Nat) (hq : q ≠ k) :
    mapGet (mapDelete m k) q = mapGet m q := by
  simp [mapGet, mapDelete, hq]

/-- The zustand store state from `src/services/fieldStore.ts`. -/
structure FieldState where
  fields : PageMap
  colorIndex : Nat

/-- The store's initial state. -/
def initialFieldState : FieldState := ⟨fun _ => none, 0⟩

/-- `storeField` from `src/services/fieldStore.ts`: append the field to its
page's list and advance the color counter. -/
def storeField (s : FieldState) (field : FieldAnn) : FieldState × FieldAnn :=
  let existing := (mapGet s.fields field.pageNumber).getD []
  (⟨mapSet s.fields field.pageNumber (existing ++ [field]), s.colorIndex + 1⟩, field)

/-- `addField` from `src/services/fieldStore.ts`; the id from
`crypto.randomUUID()` and the `Date.now()` timestamp are inputs. -/
def addField (s : FieldState) (freshId : String) (now : Nat) (pageNumber : Nat)
    (label : String) (words : List OCRWord) : FieldState × FieldAnn :=
  let color := FIELD_COLORS.getD (s.colorIndex % FIELD_COLORS.length) ""
  storeField s ⟨freshId, pageNumber, label,
    String.intercalate " " (words.map (fun w => w.text)),
    mergeBBoxes (words.map (fun w => w.bbox)), words.map (fun w => w.id), color, now⟩

/-- `addFieldRect` from `src/services/fieldStore.ts`. -/
def addFieldRect (s : FieldState) (freshId : String) (now : Nat) (pageNumber : Nat)
    (label : String) (bbox : OCRBBox) (value : String) (wordIds : List String) :
    FieldState × FieldAnn :=
  let color := FIELD_COLORS.getD (s.colorIndex % FIELD_COLORS.length) ""
  storeField s ⟨freshId, pageNumber, label, value, bbox, wordIds, color, now⟩

/-- `removeField` from `src/services/fieldStore.ts`. -/
def removeField (s : FieldState) (id : String) (pageNumber : Nat) : FieldState :=
  let kept := ((mapGet s.fields pageNumber).getD []).filter (fun f => ¬ f.id = id)
  ⟨mapSet s.fields pageNumber kept, s.colorIndex⟩

/-- `updateLabel` from `src/services/fieldStore.ts`. -/
def updateLabel (s : FieldState) (id : String) (pageNumber : Nat) (label : String) :
    FieldState :=
  let renamed := ((mapGet s.fields pageNumber).getD []).map
    (fun f => if f.id = id then { f with label := label } else f)
  ⟨mapSet s.fields pageNumber renamed, s.colorIndex⟩

/-- `clearPage` from `src/services/fieldStore.ts`. -/
def clearPage (s : FieldState) (pageNumber : Nat) : FieldState :=
  ⟨mapDelete s.fields pageNumber, s.colorIndex⟩

/-- `getPageFields` from `src/services/fieldStore.ts`. -/
def getPageFields (s : FieldState) (pageNumber : Nat) : List FieldAnn :=
  (mapGet s.fields pageNumber).getD []

/-- A session trace over the store operations the interaction layer calls. -/
inductive StoreOp where
  | add (freshId : String) (now pageNumber : Nat) (label : String) (words : List OCRWord)
  | addRect (freshId : String) (now pageNumber : Nat) (label : String)
      (bbox : OCRBBox) (value : String) (wordIds : List String)
  | remove (id : String) (pageNumber : Nat)
  | update (id : String) (pageNumber : Nat) (label : String)
  | clear (pageNumber : Nat)

/-- Apply one store operation; creations return the created field. -/
def applyOp (s : FieldState) : StoreOp → FieldState × Option FieldAnn
  | .add f n pg l ws => ((addField s f n pg l ws).1, some (addField s f n pg l ws).2)
  | .addRect f n pg l b v wi =>
      ((addFieldRect s f n pg l b v wi).1, some (addFieldRect s f n pg l b v wi).2)
  | .remove id pg => (removeField s id pg, none)
  | .update id pg l => (updateLabel s id pg l, none)
  | .clear pg => (clearPage s pg, none)

/-- Run a trace, collecting the created fields in creation order. -/
def runOps (s : FieldState) : List StoreOp → FieldState × List FieldAnn
  | [] => (s, [])
  | op :: ops =>
    match applyOp s op with
    | (s1, some f) => ((runOps s1 ops).1, f :: (runOps s1 ops).2)
    | (s1, none) => runOps s1 ops

/-- The color of the nth field created along a trace is determined by the
starting color counter plus n. -/
theorem runOps_created_color (ops : List StoreOp) :
    ∀ (s : FieldState) (n : Nat) (h : n < (runOps s ops).2.length),
      ((runOps s ops).2.get ⟨n, h⟩).color
        = FIELD_COLORS.getD ((s.colorIndex + n) % FIELD_COLORS.length) "" := by
  induction ops with
  | nil =>
    intro s n h
    simp [runOps] at h
  | cons op ops ih =>
    intro s n h
    cases op with
    | add f nw pg l ws =>
      simp only [runOps, applyOp, addField, storeField] at h ⊢
      cases n with
      | zero => simp
      | succ n =>
        simp only [List.length_cons, Nat.succ_lt_succ_iff] at h
        have := ih _ n h
        simp only [List.get] at this ⊢
        rw [this]
        congr 2
        omega
    | addRect f nw pg l b v wi =>
      simp only [runOps, applyOp, addFieldRect, storeField] at h ⊢
      cases n with
      | zero => simp
      | succ n =>
        simp only [List.length_cons, Nat.succ_lt_succ_iff] at h
        have := ih _ n h
        simp only [List.get] at this ⊢
        rw [this]
        congr 2
        omega
    | remove id pg =>
      simp only [runOps, applyOp] at h ⊢
      have := ih (removeField s id pg) n
      simpa [removeField] using this h
    | update id pg l =>
      simp only [runOps, applyOp] at h ⊢
      have := ih (updateLabel s id pg l) n
      simpa [updateLabel] using this h
    | clear pg =>
      simp only [runOps, applyOp] at h ⊢
      have := ih (clearPage s pg) n
      simpa [clearPage] using this h

/-- Claim C7: along any session trace of `addField`/`addFieldRect`/
`removeField`/`updateLabel`/`clearPage` from the initial store, the nth
field ever created (over both creation operations, across all pages) gets
palette color `n mod 10`, and `removeField` never changes the color
counter, so deletions do not cause colors to be reused out of cycle. -/
theorem C7_color_cycle (ops : List StoreOp) (n : Nat)
    (h : n < (runOps initialFieldState ops).2.length)
    (s : FieldState) (id : String) (pg : Nat) :
    ((runOps initialFieldState ops).2.get ⟨n, h⟩).color = FIELD_COLORS.getD (n % 10) "" ∧
      (removeField s id pg).colorIndex = s.colorIndex := by
  constructor
  · have hc := runOps_created_color ops initialFieldState n h
    have hlen : FIELD_COLORS.length = 10 := rfl
    rw [hc, hlen]
    simp [initialFieldState]
  · simp [removeField]

/-- Witness for C7: in a concrete trace with an intervening deletion, the
second field ever created still gets palette color `1 mod 10`. -/
theorem C7_color_cycle_witness :
    (1 < (runOps initialFieldState
        [.add "f1" 0 1 "L1" [⟨"w1", "T", 100, ⟨0, 0, 1, 1⟩⟩],
          .remove "f1" 1,
          .addRect "f2" 0 2 "L2" ⟨0, 0, 1, 1⟩ "" []]).2.length) ∧
    ((runOps initialFieldState
        [.add "f1" 0 1 "L1" [⟨"w1", "T", 100, ⟨0, 0, 1, 1⟩⟩],
          .remove "f1" 1,
          .addRect "f2" 0 2 "L2" ⟨0, 0, 1, 1⟩ "" []]).2.get ⟨1, by decide⟩).color
      = FIELD_COLORS.getD (1 % 10) "" ∧
    (removeField ⟨fun _ => none, 7⟩ "x" 3).colorIndex
      = (⟨fun _ => none, 7⟩ : FieldState).colorIndex :=
  ⟨by decide,
    (C7_color_cycle
      [.add "f1" 0 1 "L1" [⟨"w1", "T", 100, ⟨0, 0, 1, 1⟩⟩],
        .remove "f1" 1,
        .addRect "f2" 0 2 "L2" ⟨0, 0, 1, 1⟩ "" []] 1 (by decide) ⟨fun _ => none, 7⟩ "x" 3).1,
    (C7_color_cycle
      [.add "f1" 0 1 "L1" [⟨"w1", "T", 100, ⟨0, 0, 1, 1⟩⟩],
        .remove "f1" 1,
        .addRect "f2" 0 2 "L2" ⟨0, 0, 1, 1⟩ "" []] 1 (by decide) ⟨fun _ => none, 7⟩ "x" 3).2⟩

/-- Renaming an id that no field has maps every field to itself. -/
theorem map_rename_absent (l : List FieldAnn) (id : String) (lbl : String)
    (h : ∀ f ∈ l, f.id ≠ id) :
    l.map (fun f => if f.id = id then { f with label := lbl } else f) = l := by
  induction l with
  | nil => rfl
  | cons a t ih =>
    rw [List.map_cons, if_neg (h a (List.mem_cons_self a t)),
      ih (fun f hf => h f (List.mem_cons_of_mem a hf))]

/-- Claim C8: `removeField` leaves no field with the removed id on that
page; `updateLabel` with an id absent from the page leaves every page's
contents unchanged; and `getPageFields` of a page with no entry is the
empty list, never absent. -/
theorem C8_store_edge_cases (s : FieldState) (id : String) (pg q : Nat) (lbl : String) :
    (∀ f ∈ getPageFields (removeField s id pg) pg, f.id ≠ id) ∧
    ((∀ f ∈ getPageFields s pg, f.id ≠ id) →
      getPageFields (updateLabel s id pg lbl) q = getPageFields s q ∧
        (updateLabel s id pg lbl).colorIndex = s.colorIndex) ∧
    (mapGet s.fields pg = none → getPageFields s pg = []) := by
  refine ⟨?_, fun hid => ⟨?_, rfl⟩, ?_⟩
  · intro f hf
    simp only [getPageFields, removeField] at hf
    rw [mapGet_mapSet_self] at hf
    simp only [Option.getD_some] at hf
    have := List.of_mem_filter hf
    simpa using this
  · by_cases hq : q = pg
    · subst hq
      simp only [getPageFields, updateLabel]
      rw [mapGet_mapSet_self]
      simp only [Option.getD_some]
      exact map_rename_absent _ id lbl hid
    · simp only [getPageFields, updateLabel]
      rw [mapGet_mapSet_ne _ _ _ _ hq]
  · intro h
    simp [getPageFields, h]

/-- Witness for C8 at a concrete one-field store. -/
theorem C8_store_edge_cases_witness :
    (∀ f ∈ getPageFields
        (removeField ⟨mapSet (fun _ => none) 1
          [⟨"f1", 1, "A", "v", ⟨0, 0, 1, 1⟩, [], "#6c63ff", 0⟩], 1⟩ "f1" 1) 1,
      f.id ≠ "f1") ∧
    getPageFields (updateLabel ⟨mapSet (fun _ => none) 1
        [⟨"f1", 1, "A", "v", ⟨0, 0, 1, 1⟩, [], "#6c63ff", 0⟩], 1⟩ "x" 1 "L") 2
      = getPageFields ⟨mapSet (fun _ => none) 1
        [⟨"f1", 1, "A", "v", ⟨0, 0, 1, 1⟩, [], "#6c63ff", 0⟩], 1⟩ 2 ∧
    getPageFields ⟨mapSet (fun _ => none) 1
        [⟨"f1", 1, "A", "v", ⟨0, 0, 1, 1⟩, [], "#6c63ff", 0⟩], 1⟩ 2 = [] :=
  ⟨(C8_store_edge_cases ⟨mapSet (fun _ => none) 1
      [⟨"f1", 1, "A", "v", ⟨0, 0, 1, 1⟩, [], "#6c63ff", 0⟩], 1⟩ "f1" 1 2 "L").1,
    ((C8_store_edge_cases ⟨mapSet (fun _ => none) 1
      [⟨"f1", 1, "A", "v", ⟨0, 0, 1, 1⟩, [], "#6c63ff", 0⟩], 1⟩ "x" 1 2 "L").2.1 (by decide)).1,
    (C8_store_edge_cases ⟨mapSet (fun _ => none) 1
      [⟨"f1", 1, "A", "v", ⟨0, 0, 1, 1⟩, [], "#6c63ff", 0⟩], 1⟩ "x" 2 2 "L").2.2 (by decide)⟩

/-- Claim C10: every store operation invoked with page `p` leaves
`getPageFields q` unchanged for every other page `q`. -/
theorem C10_other_pages_unchanged (s : FieldState) (p q : Nat) (hq : q ≠ p)
    (freshId : String) (now : Nat) (label value lbl id : String)
    (words : List OCRWord) (bbox : OCRBBox) (wordIds : List String) :
    getPageFields (addField s freshId now p label words).1 q = getPageFields s q ∧
    getPageFields (addFieldRect s freshId now p label bbox value wordIds).1 q
      = getPageFields s q ∧
    getPageFields (removeField s id p) q = getPageFields s q ∧
    getPageFields (updateLabel s id p lbl) q = getPageFields s q ∧
    getPageFields (clearPage s p) q = getPageFields s q := by
  refine ⟨?_, ?_, ?_, ?_, ?_⟩ <;>
    simp only [getPageFields, addField, addFieldRect, storeField, removeField,
      updateLabel, clearPage]
  · rw [mapGet_mapSet_ne _ _ _ _ hq]
  · rw [mapGet_mapSet_ne _ _ _ _ hq]
  · rw [mapGet_mapSet_ne _ _ _ _ hq]
  · rw [mapGet_mapSet_ne _ _ _ _ hq]
  · rw [mapGet_mapDelete_ne _ _ _ hq]

/-- Witness for C10 at a concrete one-field store and pages 1 versus 2. -/
theorem C10_other_pages_unchanged_witness :
    getPageFields (addField ⟨mapSet (fun _ => none) 1
        [⟨"f1", 1, "A", "v", ⟨0, 0, 1, 1⟩, [], "#6c63ff", 0⟩], 1⟩ "n1" 0 1 "L" []).1 2
      = getPageFields ⟨mapSet (fun _ => none) 1
        [⟨"f1", 1, "A", "v", ⟨0, 0, 1, 1⟩, [], "#6c63ff", 0⟩], 1⟩ 2 ∧
    getPageFields (addFieldRect ⟨mapSet (fun _ => none) 1
        [⟨"f1", 1, "A", "v", ⟨0, 0, 1, 1⟩, [], "#6c63ff", 0⟩], 1⟩ "n2" 0 1 "L" ⟨0, 0, 1, 1⟩ "" []).1 2
      = getPageFields ⟨mapSet (fun _ => none) 1
        [⟨"f1", 1, "A", "v", ⟨0, 0, 1, 1⟩, [], "#6c63ff", 0⟩], 1⟩ 2 ∧
    getPageFields (removeField ⟨mapSet (fun _ => none) 1
        [⟨"f1", 1, "A", "v", ⟨0, 0, 1, 1⟩, [], "#6c63ff", 0⟩], 1⟩ "f1" 1) 2
      = getPageFields ⟨mapSet (fun _ => none) 1
        [⟨"f1", 1, "A", "v", ⟨0, 0, 1, 1⟩, [], "#6c63ff", 0⟩], 1⟩ 2 ∧
    getPageFields (updateLabel ⟨mapSet (fun _ => none) 1
        [⟨"f1", 1, "A", "v", ⟨0, 0, 1, 1⟩, [], "#6c63ff", 0⟩], 1⟩ "f1" 1 "M") 2
      = getPageFields ⟨mapSet (fun _ => none) 1
        [⟨"f1", 1, "A", "v", ⟨0, 0, 1, 1⟩, [], "#6c63ff", 0⟩], 1⟩ 2 ∧
    getPageFields (clearPage ⟨mapSet (fun _ => none) 1
        [⟨"f1", 1, "A", "v", ⟨0, 0, 1, 1⟩, [], "#6c63ff", 0⟩], 1⟩ 1) 2
      = getPageFields ⟨mapSet (fun _ => none) 1
        [⟨"f1", 1, "A", "v", ⟨0, 0, 1, 1⟩, [], "#6c63ff", 0⟩], 1⟩ 2 :=
  C10_other_pages_unchanged ⟨mapSet (fun _ => none) 1
      [⟨"f1", 1, "A", "v", ⟨0, 0, 1, 1⟩, [], "#6c63ff", 0⟩], 1⟩ 1 2 (by decide)
    "n1" 0 "L" "" "M" "f1" [] ⟨0, 0, 1, 1⟩ []

/-- Clamp into `[0,1]`, mirroring `Math.max(0, Math.min(1, x))`. -/
def clamp01 (q : ℚ) : ℚ := max 0 (min 1 q)

/-- Numeric core of the per-item bounding-box computation of
`extractPageText` (`src/services/pdfTextExtractor.ts`, lines 54 to 91).
`fontSizeApprox` stands for `Math.hypot(transform[0], transform[1])`,
irrational in general, passed here as a precomputed input; it is used only
when the item height is not positive. -/
def extractWordBBox (view0 view1 view2 view3 tfx tfy itemWidth itemHeight
    fontSizeApprox : ℚ) : OCRBBox :=
  let pageLeft := view0
  let pageBottom := view1
  let pageWidth := view2 - pageLeft
  let pageHeight := view3 - pageBottom
  let tx := tfx - pageLeft
  let ty := tfy - pageBottom
  let w := |itemWidth|
  let h := if itemHeight > 0 then itemHeight else fontSizeApprox
  ⟨clamp01 (tx / pageWidth), clamp01 (1 - (ty + h) / pageHeight),
    clamp01 ((tx + w) / pageWidth), clamp01 (1 - ty / pageHeight)⟩

/-- OCR-path normalization from `runOCR` in `src/App.tsx`: straight
division of each coordinate by the canvas raster size. -/
def ocrNormalizeBBox (b : OCRBBox) (cw ch : ℚ) : OCRBBox :=
  ⟨b.x0 / cw, b.y0 / ch, b.x1 / cw, b.y1 / ch⟩

/-- Modelled from the spec: "zero or negative extent substitutes 1 to
avoid division failure". -/
def guardExtent (w : ℚ) : ℚ := if w ≤ 0 then 1 else w

/-- The spec's guarded variant of the embedded-text normalization. -/
def extractWordBBoxGuarded (view0 view1 view2 view3 tfx tfy itemWidth itemHeight
    fontSizeApprox : ℚ) : OCRBBox :=
  let pageLeft := view0
  let pageBottom := view1
  let pageWidth := guardExtent (view2 - pageLeft)
  let pageHeight := guardExtent (view3 - pageBottom)
  let tx := tfx - pageLeft
  let ty := tfy - pageBottom
  let w := |itemWidth|
  let h := if itemHeight > 0 then itemHeight else fontSizeApprox
  ⟨clamp01 (tx / pageWidth), clamp01 (1 - (ty + h) / pageHeight),
    clamp01 ((tx + w) / pageWidth), clamp01 (1 - ty / pageHeight)⟩

/-- The spec's guarded variant of the OCR normalization. -/
def ocrNormalizeBBoxGuarded (b : OCRBBox) (cw ch : ℚ) : OCRBBox :=
  ⟨b.x0 / guardExtent cw, b.y0 / guardExtent ch,
    b.x1 / guardExtent cw, b.y1 / guardExtent ch⟩

/-- Claim C9, counterexample: at a negative extent the code divides by the
extent itself, not by a substituted 1, so both normalizers differ from the
spec's guarded normalizer (exact values: dividing by -2 flips signs, and
the embedded path then clamps the skewed quotients). -/
theorem C9_counterexample_negative_extent :
    ocrNormalizeBBox ⟨1, 1, 2, 2⟩ (-2) (-2) = ⟨-(1/2), -(1/2), -1, -1⟩ ∧
    ocrNormalizeBBoxGuarded ⟨1, 1, 2, 2⟩ (-2) (-2) = ⟨1, 1, 2, 2⟩ ∧
    ocrNormalizeBBox ⟨1, 1, 2, 2⟩ (-2) (-2)
      ≠ ocrNormalizeBBoxGuarded ⟨1, 1, 2, 2⟩ (-2) (-2) ∧
    extractWordBBox 0 0 (-2) 1 1 0 1 1 0 = ⟨0, 0, 0, 1⟩ ∧
    extractWordBBoxGuarded 0 0 (-2) 1 1 0 1 1 0 = ⟨1, 0, 1, 1⟩ ∧
    extractWordBBox 0 0 (-2) 1 1 0 1 1 0
      ≠ extractWordBBoxGuarded 0 0 (-2) 1 1 0 1 1 0 := by
  decide

/-- Claim C9 (amended: the extraction code divides by the raw extent with
no substitution; for positive extents this coincides with the spec's
guarded normalizer, but zero or negative extents are not replaced by 1 —
the only `|| 1` guard in the repository is in a documentation snippet that
the extraction code does not use). -/
theorem C9_positive_extent_guard_vacuous (b : OCRBBox) (cw ch : ℚ)
    (v0 v1 v2 v3 tfx tfy iw ih fsa : ℚ)
    (hcw : 0 < cw) (hch : 0 < ch) (hw : 0 < v2 - v0) (hh : 0 < v3 - v1) :
    ocrNormalizeBBox b cw ch = ocrNormalizeBBoxGuarded b cw ch ∧
    extractWordBBox v0 v1 v2 v3 tfx tfy iw ih fsa
      = extractWordBBoxGuarded v0 v1 v2 v3 tfx tfy iw ih fsa := by
  have g1 : guardExtent cw = cw := by
    unfold guardExtent
    rw [if_neg (not_le.mpr hcw)]
  have g2 : guardExtent ch = ch := by
    unfold guardExtent
    rw [if_neg (not_le.mpr hch)]
  have g3 : guardExtent (v2 - v0) = v2 - v0 := by
    unfold guardExtent
    rw [if_neg (not_le.mpr hw)]
  have g4 : guardExtent (v3 - v1) = v3 - v1 := by
    unfold guardExtent
    rw [if_neg (not_le.mpr hh)]
  constructor
  · unfold ocrNormalizeBBox ocrNormalizeBBoxGuarded
    rw [g1, g2]
  · simp only [extractWordBBox, extractWordBBoxGuarded, g3, g4]

/-- Witness for the amended C9 at concrete positive extents. -/
theorem C9_positive_extent_guard_vacuous_witness :
    ocrNormalizeBBox ⟨1, 2, 3, 4⟩ 10 20 = ocrNormalizeBBoxGuarded ⟨1, 2, 3, 4⟩ 10 20 ∧
    extractWordBBox 0 0 5 5 1 1 1 1 0 = extractWordBBoxGuarded 0 0 5 5 1 1 1 1 0 :=
  C9_positive_extent_guard_vacuous ⟨1, 2, 3, 4⟩ 10 20 0 0 5 5 1 1 1 1 0
    (by decide) (by decide) (by decide) (by decide)

end PdfBox
